import Mathlib

/-!
Shallow embedding of the two specified components of the zelara-ai/app-mobile
repository:

* `src/services/ProgressService.ts` — local progress / point storage
  (`loadProgress`, `saveProgress`, `awardPoints`, `unlockModule`,
  `resetProgress`, `getNextUnlockProgress`), including the identity of the
  module-level `DEFAULT_PROGRESS` object: the TypeScript code returns that very
  object from the first-ever `loadProgress` and `saveProgress` serialises a
  snapshot into storage, so the embedding carries the default object in the
  store state and an aliasing flag on the record `loadProgress` hands out.

* `src/services/DeviceLinkingService.ts` — the device-linking client
  (`connect` candidate iteration with aggregated errors, the connection state
  fields set by the `onopen` / `onclose` handlers and `disconnect`, and the
  pending-request table driven by `handleMessage` and the per-request timeout).

Timestamps (`new Date().toISOString()`) are modelled as integers supplied by
the caller; JSON round-trips through AsyncStorage are value copies.
-/

namespace Zelara

/-! ### ProgressService: data model -/

/-- The `ProgressState` interface of `ProgressService.ts`.  `points` is a JS
number used integrally; `last_updated` is the ISO timestamp, modelled as an
integer clock value. -/
structure ProgressState where
  points : Int
  unlocked_modules : List String
  available_unlocks : List String
  tasks_completed : List String
  last_updated : Int
deriving DecidableEq

/-- The module-level `DEFAULT_PROGRESS` constant: zero points, only the
`green` module unlocked, empty `available_unlocks` and `tasks_completed`. -/
def DEFAULT_PROGRESS : ProgressState :=
  { points := 0
    unlocked_modules := ["green"]
    available_unlocks := []
    tasks_completed := []
    last_updated := 0 }

/-- The `UNLOCK_THRESHOLDS` configuration: `finance` unlocks at 50 points. -/
def UNLOCK_THRESHOLDS : List (String × Int) := [("finance", 50)]

/-- The names of the configured modules (the keys of `UNLOCK_THRESHOLDS`). -/
def configuredModules : List String := UNLOCK_THRESHOLDS.map Prod.fst

/-- The in-place mutation performed by `awardPoints` on the record returned by
`loadProgress`, before `saveProgress` runs: add `amount` to `points`
unconditionally; push `taskId` onto `tasks_completed` if it is a truthy string
not already present; then walk `UNLOCK_THRESHOLDS` pushing each module whose
threshold is met and which is in neither `unlocked_modules` nor the (already
partially updated) `available_unlocks`, collecting those as `newlyUnlocked`.
Returns the mutated record and the `newlyUnlocked` list; the returned
`newPoints` is the record's `points` field. -/
def awardPointsPure (s : ProgressState) (amount : Int) (taskId : Option String) :
    ProgressState × List String :=
  let pts := s.points + amount
  let tasks :=
    match taskId with
    | some t =>
        if t ≠ "" ∧ t ∉ s.tasks_completed then s.tasks_completed ++ [t]
        else s.tasks_completed
    | none => s.tasks_completed
  let acc := UNLOCK_THRESHOLDS.foldl
    (fun (acc : List String × List String) mt =>
      if mt.2 ≤ pts ∧ mt.1 ∉ s.unlocked_modules ∧ mt.1 ∉ acc.1 then
        (acc.1 ++ [mt.1], acc.2 ++ [mt.1])
      else acc)
    (s.available_unlocks, [])
  ({ s with points := pts, tasks_completed := tasks, available_unlocks := acc.1 }, acc.2)

/-- The in-place mutation performed by `unlockModule`: filter `moduleName` out
of `available_unlocks` and append it to `unlocked_modules` if absent. -/
def unlockModulePure (s : ProgressState) (moduleName : String) : ProgressState :=
  let avail := s.available_unlocks.filter (fun m => m ≠ moduleName)
  let unl :=
    if moduleName ∈ s.unlocked_modules then s.unlocked_modules
    else s.unlocked_modules ++ [moduleName]
  { s with available_unlocks := avail, unlocked_modules := unl }

/-- Result shape of `getNextUnlockProgress`; `progress` is the fraction
`points / requiredPoints`. -/
structure NextUnlock where
  moduleName : String
  requiredPoints : Int
  currentPoints : Int
  progress : ℚ
deriving DecidableEq

/-- `getNextUnlockProgress` on a loaded record: scan `UNLOCK_THRESHOLDS`
keeping the entry with `threshold > points`, `threshold < nextThreshold`
(`none` plays the role of the initial `Infinity`), not unlocked and not
available; return `null` when no entry qualifies, else the progress object. -/
def getNextUnlockProgressPure (s : ProgressState) : Option NextUnlock :=
  let pick := UNLOCK_THRESHOLDS.foldl
    (fun (acc : Option (String × Int)) mt =>
      match acc with
      | none =>
          if mt.2 > s.points ∧ mt.1 ∉ s.unlocked_modules ∧ mt.1 ∉ s.available_unlocks then
            some mt
          else none
      | some b =>
          if mt.2 > s.points ∧ mt.2 < b.2 ∧ mt.1 ∉ s.unlocked_modules ∧
              mt.1 ∉ s.available_unlocks then
            some mt
          else some b)
    none
  match pick with
  | none => none
  | some mt =>
      some { moduleName := mt.1, requiredPoints := mt.2, currentPoints := s.points
             progress := (s.points : ℚ) / (mt.2 : ℚ) }

/-! ### ProgressService: the store with the shared default object

`loadProgress` reads AsyncStorage on every call (the `cachedProgress` field is
written but never read by any operation).  On first access (`storage = none`)
it calls `saveProgress(DEFAULT_PROGRESS)` — which stamps `last_updated` on the
default object itself and serialises a snapshot — and returns the default
object; the Boolean in the result records that the returned record aliases the
module-level default.  Otherwise it returns the parsed (fresh) copy. -/

/-- Store state: the serialised record in AsyncStorage (if any) and the current
value of the module-level `DEFAULT_PROGRESS` object (mutable in JS). -/
structure Store where
  storage : Option ProgressState
  defaultObj : ProgressState
deriving DecidableEq

/-- A fresh process with empty AsyncStorage and a pristine default object. -/
def emptyStore : Store := { storage := none, defaultObj := DEFAULT_PROGRESS }

/-- `loadProgress`: returns the updated store, the record handed to the caller,
and whether that record is the module-level default object itself. -/
def loadProgress (st : Store) (now : Int) : Store × ProgressState × Bool :=
  match st.storage with
  | none =>
      let d := { st.defaultObj with last_updated := now }
      ({ storage := some d, defaultObj := d }, d, true)
  | some p => (st, p, false)

/-- `saveProgress` applied to the record an operation just mutated: stamp
`last_updated`, serialise into storage; when the record aliases the default
object the stamp mutates the default object too. -/
def saveMutated (st : Store) (aliased : Bool) (p : ProgressState) (now : Int) : Store :=
  let q := { p with last_updated := now }
  { storage := some q, defaultObj := if aliased then q else st.defaultObj }

/-- `awardPoints(amount, taskId)` at the store level: `loadProgress`, mutate,
`saveProgress`.  Returns the new store, `newPoints` and `unlockedModules`. -/
def awardPoints (st : Store) (amount : Int) (taskId : Option String)
    (tLoad tSave : Int) : Store × Int × List String :=
  let (st1, p, aliased) := loadProgress st tLoad
  let (q, newly) := awardPointsPure p amount taskId
  (saveMutated st1 aliased q tSave, q.points, newly)

/-- `unlockModule(moduleName)` at the store level. -/
def unlockModule (st : Store) (moduleName : String) (tLoad tSave : Int) : Store :=
  let (st1, p, aliased) := loadProgress st tLoad
  saveMutated st1 aliased (unlockModulePure p moduleName) tSave

/-- `resetProgress()`: `saveProgress(DEFAULT_PROGRESS)` — stamps the (current)
default object and serialises it. -/
def resetProgress (st : Store) (now : Int) : Store :=
  let d := { st.defaultObj with last_updated := now }
  { storage := some d, defaultObj := d }

/-- `getNextUnlockProgress()` at the store level: `loadProgress` then scan. -/
def getNextUnlockProgress (st : Store) (tLoad : Int) : Option NextUnlock :=
  getNextUnlockProgressPure (loadProgress st tLoad).2.1

/-- Run a list of `awardPoints(amount, id)` calls on a record (the pure
mutation layer, which is where `points` is computed). -/
def runAwardCalls (s : ProgressState) (calls : List (Int × String)) : ProgressState :=
  calls.foldl (fun st c => (awardPointsPure st c.1 (some c.2)).1) s

/-- Spec invariant: a module name appears in at most one of
`unlocked_modules` / `available_unlocks`. -/
def DisjointMods (p : ProgressState) : Prop :=
  ∀ m ∈ p.unlocked_modules, m ∉ p.available_unlocks

/-- The store-level invariant: the persisted record (when present) and the
module-level default object both satisfy `DisjointMods`. -/
def StoreInv (st : Store) : Prop :=
  (∀ p, st.storage = some p → DisjointMods p) ∧ DisjointMods st.defaultObj

end Zelara

namespace Zelara

/-! ### DeviceLinkingService: connection establishment

`connect(ips, port, token)` normalises `ips` to a list and tries
`connectToSingle` on each in order, collecting "`ip`: `message`" strings for
the failures; the first success returns, and exhaustion throws one aggregate
error.  A single attempt is abstracted as an oracle `attempt : ip → Option
message` (`none` = the socket opened; `some e` = the attempt rejected with
message `e`, one of "Connection timeout" / "Connection refused" /
"Connection closed"). -/

/-- The aggregate failure message thrown when every candidate failed. -/
def connectErrorMsg (errors : List String) : String :=
  "Could not connect to Desktop. Tried:\n" ++ String.intercalate "\n" errors

/-- The candidate loop of `connect`, carrying the `errors` accumulator.
Returns the outcome together with the list of candidates actually attempted,
in order. -/
def connectGo (attempt : String → Option String) (errors : List String) :
    List String → Except String Unit × List String
  | [] => (Except.error (connectErrorMsg errors), [])
  | ip :: rest =>
      match attempt ip with
      | none => (Except.ok (), [ip])
      | some e =>
          let r := connectGo attempt (errors ++ [ip ++ ": " ++ e]) rest
          (r.1, ip :: r.2)

/-- `connect` on an already-normalised candidate list. -/
def connect (attempt : String → Option String) (ips : List String) :
    Except String Unit × List String :=
  connectGo attempt [] ips

/-- A concrete attempt oracle: only candidate `B` opens; every other attempt
is refused. -/
def attemptSecondOpens : String → Option String :=
  fun ip => if ip = "B" then none else some "Connection refused"

/-- A concrete attempt oracle where every candidate times out. -/
def attemptAllFail : String → Option String :=
  fun _ => some "Connection timeout"

/-! ### DeviceLinkingService: connection state

The client fields `connection` (is the WebSocket handle non-null),
`connectionInfo` and `connected`, and the handlers that write them. -/

/-- The `ConnectionInfo` interface. -/
structure ConnectionInfo where
  ip : String
  port : Nat
  token : String
deriving DecidableEq

/-- The three client fields governing connection state. -/
structure ClientConn where
  connection : Bool
  connectionInfo : Option ConnectionInfo
  connected : Bool
deriving DecidableEq

/-- Initial field values of a fresh `DeviceLinkingService`. -/
def initialClientConn : ClientConn :=
  { connection := false, connectionInfo := none, connected := false }

/-- The `ws.onopen` handler body of a successful `connectToSingle`: store the
socket, capture `{ ip, port, token }`, set `connected`. -/
def onOpen (ip : String) (port : Nat) (token : String) (_s : ClientConn) : ClientConn :=
  { connection := true, connectionInfo := some { ip := ip, port := port, token := token }
    connected := true }

/-- The `ws.onclose` handler installed after a successful open (a transport
-level close): it sets `connected = false` and `connection = null` — and
touches nothing else. -/
def onTransportClose (s : ClientConn) : ClientConn :=
  { s with connected := false, connection := false }

/-- `disconnect()`: if a connection handle exists, close it and null out all
three fields; otherwise do nothing. -/
def disconnect (s : ClientConn) : ClientConn :=
  if s.connection then
    { connection := false, connectionInfo := none, connected := false }
  else s

/-- `isConnected()`: `connected && connection !== null`. -/
def isConnected (s : ClientConn) : Bool :=
  s.connected && s.connection

/-! ### DeviceLinkingService: pending-request table

`pendingRequests : Map<string, callback>` keyed by `taskId`.  A task call
settles its promise exactly when its stored callback runs (`handleMessage`) or
its timeout fires; the `settlements` log records each settling event.  The
response's `result` is, per the wire protocol, a JSON object whose `error`
field (a string, possibly absent) is read on the failure path. -/

/-- The `result` field of a response: an object with an optional `error`
string plus opaque other fields. -/
structure ResultObj where
  error : Option String
  fields : List (String × String)
deriving DecidableEq

/-- The `TaskResponse` interface (timestamp as integer clock value). -/
structure TaskResponse where
  taskId : String
  success : Bool
  result : ResultObj
deriving DecidableEq

/-- How a task call's promise was settled. -/
inductive Settlement where
  | resolved (r : ResultObj)
  | rejected (msg : String)
deriving DecidableEq

/-- The callback `sendImageValidation` registers: resolve with `result` on
`success`, reject with `result.error || 'Validation failed'` otherwise (JS
`||`: an absent or empty `error` string falls back). -/
def validationCallback (resp : TaskResponse) : Settlement :=
  if resp.success then Settlement.resolved resp.result
  else
    Settlement.rejected
      (match resp.result.error with
       | some e => if e = "" then "Validation failed" else e
       | none => "Validation failed")

/-- Pending-request table state: the live keys of `pendingRequests` and the
log of promise settlements (one entry per settling event). -/
structure LinkState where
  pending : List String
  settlements : List (String × Settlement)
deriving DecidableEq

/-- `handleMessage` on a parsed response: if `response.taskId` has a live
entry, run its callback (settling the promise) and delete the entry;
otherwise do nothing. -/
def handleMessage (cb : TaskResponse → Settlement) (s : LinkState)
    (resp : TaskResponse) : LinkState :=
  if resp.taskId ∈ s.pending then
    { pending := s.pending.erase resp.taskId
      settlements := s.settlements ++ [(resp.taskId, cb resp)] }
  else s

/-- The per-request timeout body: if the id is still pending, delete it and
reject the promise with 'Request timeout'; otherwise do nothing. -/
def expireRequest (s : LinkState) (id : String) : LinkState :=
  if id ∈ s.pending then
    { pending := s.pending.erase id
      settlements := s.settlements ++ [(id, Settlement.rejected "Request timeout")] }
  else s

/-- Number of times the promise keyed by `id` has been settled. -/
def settleCount (s : LinkState) (id : String) : Nat :=
  (s.settlements.filter (fun x => x.1 = id)).length

/-- A record whose points already meet the `finance` threshold while
`finance` is in neither module set (reachable only by hand, but
`getNextUnlockProgress` is a pure function of the loaded record). -/
def highPointsRecord : ProgressState :=
  { points := 50
    unlocked_modules := ["green"]
    available_unlocks := []
    tasks_completed := []
    last_updated := 0 }

/-! ### Helper lemmas on `awardPointsPure` -/

/-- `awardPoints` adds `amount` to `points` unconditionally. -/
theorem awardPointsPure_points (s : ProgressState) (a : Int) (tid : Option String) :
    (awardPointsPure s a tid).1.points = s.points + a := rfl

/-- A truthy, not-yet-recorded `taskId` is appended to `tasks_completed`. -/
theorem awardPointsPure_tasks_of_not_mem (s : ProgressState) (a : Int) (t : String)
    (ht : t ≠ "") (h : t ∉ s.tasks_completed) :
    (awardPointsPure s a (some t)).1.tasks_completed = s.tasks_completed ++ [t] := by
  simp [awardPointsPure, ht, h]

/-- A `taskId` already in `tasks_completed` leaves it unchanged. -/
theorem awardPointsPure_tasks_of_mem (s : ProgressState) (a : Int) (t : String)
    (h : t ∈ s.tasks_completed) :
    (awardPointsPure s a (some t)).1.tasks_completed = s.tasks_completed := by
  simp [awardPointsPure, h]

/-- `awardPoints` never touches `unlocked_modules`. -/
theorem awardPointsPure_unlocked (s : ProgressState) (a : Int) (tid : Option String) :
    (awardPointsPure s a tid).1.unlocked_modules = s.unlocked_modules := rfl

example : (awardPointsPure DEFAULT_PROGRESS 5 (some "t1")).1.points = 5 := by decide

example :
    (awardPointsPure ((awardPointsPure DEFAULT_PROGRESS 5 (some "t1")).1) 5
      (some "t1")).1.points = 10 := by decide

example :
    (awardPointsPure ((awardPointsPure DEFAULT_PROGRESS 5 (some "t1")).1) 5
      (some "t1")).1.tasks_completed = ["t1"] := by decide

example :
    getNextUnlockProgressPure
      { points := 50, unlocked_modules := ["green"], available_unlocks := []
        tasks_completed := [], last_updated := 0 } = none := by decide

example :
    getNextUnlockProgressPure DEFAULT_PROGRESS =
      some { moduleName := "finance", requiredPoints := 50, currentPoints := 0
             progress := 0 } := by
  simp [getNextUnlockProgressPure, DEFAULT_PROGRESS, UNLOCK_THRESHOLDS]

example :
    (awardPointsPure DEFAULT_PROGRESS 60 none).1.available_unlocks = ["finance"] := by
  decide

/-! ### Claim C1 -/

/-- Claim C1 as stated is false on the code: awarding `5` for task `"t1"`
twice from the default record leaves `10` points, not the `5` points present
after the first call — `awardPoints` adds `amount` unconditionally and only
the `tasks_completed` membership is deduplicated.  Moreover an empty task id
is never recorded at all (JS truthiness of `taskId`). -/
theorem awardPoints_repeat_cex :
    (awardPointsPure ((awardPointsPure DEFAULT_PROGRESS 5 (some "t1")).1) 5
        (some "t1")).1.points = 10 ∧
    (awardPointsPure DEFAULT_PROGRESS 5 (some "t1")).1.points = 5 ∧
    ¬ (awardPointsPure ((awardPointsPure DEFAULT_PROGRESS 5 (some "t1")).1) 5
        (some "t1")).1.points =
      (awardPointsPure DEFAULT_PROGRESS 5 (some "t1")).1.points ∧
    (awardPointsPure ((awardPointsPure DEFAULT_PROGRESS 5 (some "t1")).1) 5
        (some "t1")).1.tasks_completed.count "t1" = 1 ∧
    (awardPointsPure DEFAULT_PROGRESS 5 (some "")).1.tasks_completed.count "" = 0 := by
  decide

/-- Claim C1 (amended): for every record, positive amount `a` and *non-empty*
task id `t` not yet recorded, a second `awardPoints(a, t)` call **does**
re-award the points — the total after the second call equals the total after
the first call plus `a` (not the first-call total) — while `tasks_completed`
still contains `t` exactly once. -/
theorem awardPoints_repeat_amended (s : ProgressState) (a : Int) (t : String)
    (ht : t ≠ "") (h : t ∉ s.tasks_completed) :
    (awardPointsPure s a (some t)).1.points = s.points + a ∧
    (awardPointsPure ((awardPointsPure s a (some t)).1) a (some t)).1.points =
      (awardPointsPure s a (some t)).1.points + a ∧
    (awardPointsPure ((awardPointsPure s a (some t)).1) a (some t)).1.tasks_completed.count t
      = 1 := by
  refine ⟨awardPointsPure_points s a (some t), awardPointsPure_points _ a (some t), ?_⟩
  have h1 : (awardPointsPure s a (some t)).1.tasks_completed = s.tasks_completed ++ [t] :=
    awardPointsPure_tasks_of_not_mem s a t ht h
  have hmem : t ∈ (awardPointsPure s a (some t)).1.tasks_completed := by
    rw [h1]; exact List.mem_append_right _ (List.mem_singleton.mpr rfl)
  rw [awardPointsPure_tasks_of_mem _ a t hmem, h1, List.count_append]
  simp [List.count_eq_zero_of_not_mem h]

/-- Witness for `awardPoints_repeat_amended` at the default record, amount 5,
task id `"t1"`. -/
theorem awardPoints_repeat_amended_witness :
    (awardPointsPure DEFAULT_PROGRESS 5 (some "t1")).1.points = DEFAULT_PROGRESS.points + 5 ∧
    (awardPointsPure ((awardPointsPure DEFAULT_PROGRESS 5 (some "t1")).1) 5
        (some "t1")).1.points = (awardPointsPure DEFAULT_PROGRESS 5 (some "t1")).1.points + 5 ∧
    (awardPointsPure ((awardPointsPure DEFAULT_PROGRESS 5 (some "t1")).1) 5
        (some "t1")).1.tasks_completed.count "t1" = 1 :=
  awardPoints_repeat_amended DEFAULT_PROGRESS 5 "t1" (by decide) (by decide)

/-! ### Claim C3 -/

/-- Claim C3: starting from any record, a sequence of `awardPoints(amount_i,
id_i)` calls with pairwise-distinct task ids leaves `points` equal to the
starting points plus the sum of the amounts (in fact the code adds every
amount regardless of the ids). -/
theorem awardPoints_sequence_sum (s : ProgressState) (calls : List (Int × String))
    (hdist : (calls.map Prod.snd).Nodup) :
    (runAwardCalls s calls).points = s.points + (calls.map Prod.fst).sum := by
  induction calls generalizing s with
  | nil => simp [runAwardCalls]
  | cons c rest ih =>
      have htl : (rest.map Prod.snd).Nodup := by
        simpa using hdist.of_cons
      have hstep : runAwardCalls s (c :: rest) =
          runAwardCalls ((awardPointsPure s c.1 (some c.2)).1) rest := rfl
      rw [hstep, ih _ htl, awardPointsPure_points]
      simp [add_assoc]

/-- Witness for `awardPoints_sequence_sum`: two calls with distinct ids from
the default record. -/
theorem awardPoints_sequence_sum_witness :
    (runAwardCalls DEFAULT_PROGRESS [(5, "a"), (7, "b")]).points =
      DEFAULT_PROGRESS.points + ([(5, "a"), (7, "b")].map Prod.fst).sum :=
  awardPoints_sequence_sum DEFAULT_PROGRESS [(5, "a"), (7, "b")] (by decide)

/-! ### Claim C7 -/

/-- Claim C7 as stated is false on the code: on a record with 50 points where
`finance` is in neither `unlocked_modules` nor `available_unlocks`,
`getNextUnlockProgress` returns none (the threshold is not *strictly above*
the points), yet not every configured module is in the union — the stated
"iff" fails in the only-if direction. -/
theorem nextUnlock_none_cex :
    getNextUnlockProgressPure highPointsRecord = none ∧
    "finance" ∈ configuredModules ∧
    "finance" ∉ highPointsRecord.unlocked_modules ∧
    "finance" ∉ highPointsRecord.available_unlocks ∧
    (0 : Int) ≤ highPointsRecord.points := by
  decide

/-- Claim C7 (amended): for every record with non-negative points,
`getNextUnlockProgress` returns none iff every configured module is unlocked,
available, **or already has its threshold met** (`threshold ≤ points`);
otherwise it returns the module with the lowest threshold strictly above the
current points among those in neither set, with fraction
`currentPoints / requiredPoints` in `[0, 1)`. -/
theorem nextUnlock_amended (s : ProgressState) (hpts : 0 ≤ s.points) :
    (getNextUnlockProgressPure s = none ↔
      ∀ mt ∈ UNLOCK_THRESHOLDS,
        mt.1 ∈ s.unlocked_modules ∨ mt.1 ∈ s.available_unlocks ∨ mt.2 ≤ s.points) ∧
    (∀ r, getNextUnlockProgressPure s = some r →
      (r.moduleName, r.requiredPoints) ∈ UNLOCK_THRESHOLDS ∧
      s.points < r.requiredPoints ∧
      r.moduleName ∉ s.unlocked_modules ∧
      r.moduleName ∉ s.available_unlocks ∧
      (∀ mt ∈ UNLOCK_THRESHOLDS, s.points < mt.2 → mt.1 ∉ s.unlocked_modules →
        mt.1 ∉ s.available_unlocks → r.requiredPoints ≤ mt.2) ∧
      r.currentPoints = s.points ∧
      r.progress = (s.points : ℚ) / (r.requiredPoints : ℚ) ∧
      0 ≤ r.progress ∧ r.progress < 1) := by
  by_cases hc : s.points < 50 ∧ "finance" ∉ s.unlocked_modules ∧
      "finance" ∉ s.available_unlocks
  · have hpick : getNextUnlockProgressPure s =
        some { moduleName := "finance", requiredPoints := 50, currentPoints := s.points
               progress := (s.points : ℚ) / (50 : ℚ) } := by
      simp only [getNextUnlockProgressPure, UNLOCK_THRESHOLDS, List.foldl_cons,
        List.foldl_nil, gt_iff_lt]
      rw [if_pos ⟨hc.1, hc.2.1, hc.2.2⟩]
      norm_num
    refine ⟨?_, ?_⟩
    · rw [hpick]
      simp only [reduceCtorEq, false_iff]
      intro hall
      rcases hall ("finance", 50) (by simp [UNLOCK_THRESHOLDS]) with h | h | h
      · exact hc.2.1 h
      · exact hc.2.2 h
      · omega
    · intro r hr
      rw [hpick] at hr
      cases Option.some.inj hr
      refine ⟨by simp [UNLOCK_THRESHOLDS], hc.1, hc.2.1, hc.2.2, ?_, rfl, rfl, ?_, ?_⟩
      · intro mt hmt _ _ _
        simp only [UNLOCK_THRESHOLDS, List.mem_singleton] at hmt
        subst hmt
        exact le_refl _
      · exact div_nonneg (by exact_mod_cast hpts) (by norm_num)
      · rw [div_lt_one (by norm_num)]
        exact_mod_cast hc.1
  · have hpick : getNextUnlockProgressPure s = none := by
      simp only [getNextUnlockProgressPure, UNLOCK_THRESHOLDS, List.foldl_cons,
        List.foldl_nil, gt_iff_lt]
      rw [if_neg (by tauto)]
    refine ⟨?_, ?_⟩
    · rw [hpick]
      simp only [true_iff]
      intro mt hmt
      simp only [UNLOCK_THRESHOLDS, List.mem_singleton] at hmt
      subst hmt
      simp only [not_and_or, not_not, not_lt] at hc
      tauto
    · intro r hr
      rw [hpick] at hr
      exact absurd hr (by simp)

/-- Witness for `nextUnlock_amended` at the default record (0 points). -/
theorem nextUnlock_amended_witness :
    (getNextUnlockProgressPure DEFAULT_PROGRESS = none ↔
      ∀ mt ∈ UNLOCK_THRESHOLDS,
        mt.1 ∈ DEFAULT_PROGRESS.unlocked_modules ∨
        mt.1 ∈ DEFAULT_PROGRESS.available_unlocks ∨ mt.2 ≤ DEFAULT_PROGRESS.points) ∧
    (∀ r, getNextUnlockProgressPure DEFAULT_PROGRESS = some r →
      (r.moduleName, r.requiredPoints) ∈ UNLOCK_THRESHOLDS ∧
      DEFAULT_PROGRESS.points < r.requiredPoints ∧
      r.moduleName ∉ DEFAULT_PROGRESS.unlocked_modules ∧
      r.moduleName ∉ DEFAULT_PROGRESS.available_unlocks ∧
      (∀ mt ∈ UNLOCK_THRESHOLDS, DEFAULT_PROGRESS.points < mt.2 →
        mt.1 ∉ DEFAULT_PROGRESS.unlocked_modules →
        mt.1 ∉ DEFAULT_PROGRESS.available_unlocks → r.requiredPoints ≤ mt.2) ∧
      r.currentPoints = DEFAULT_PROGRESS.points ∧
      r.progress = (DEFAULT_PROGRESS.points : ℚ) / (r.requiredPoints : ℚ) ∧
      0 ≤ r.progress ∧ r.progress < 1) :=
  nextUnlock_amended DEFAULT_PROGRESS (by decide)

/-! ### Helper lemmas for the store-level operations -/

/-- `StoreInv` of a store with a persisted record, componentwise. -/
theorem storeInv_mk (q d : ProgressState) :
    StoreInv { storage := some q, defaultObj := d } ↔ DisjointMods q ∧ DisjointMods d := by
  constructor
  · intro h
    exact ⟨h.1 q rfl, h.2⟩
  · intro h
    exact ⟨fun p hp => (Option.some.inj hp) ▸ h.1, h.2⟩

/-- The `available_unlocks` written by `awardPoints` is either unchanged or
the old list with `finance` appended, the latter only when `finance` is not
unlocked. -/
theorem awardPointsPure_avail (s : ProgressState) (a : Int) (tid : Option String) :
    (awardPointsPure s a tid).1.available_unlocks = s.available_unlocks ∨
    ((awardPointsPure s a tid).1.available_unlocks = s.available_unlocks ++ ["finance"] ∧
      "finance" ∉ s.unlocked_modules) := by
  by_cases hcond : (50 : Int) ≤ s.points + a ∧ "finance" ∉ s.unlocked_modules ∧
      "finance" ∉ s.available_unlocks
  · right
    constructor
    · simp only [awardPointsPure, UNLOCK_THRESHOLDS, List.foldl_cons, List.foldl_nil]
      rw [if_pos hcond]
    · exact hcond.2.1
  · left
    simp only [awardPointsPure, UNLOCK_THRESHOLDS, List.foldl_cons, List.foldl_nil]
    rw [if_neg hcond]

/-- `awardPoints`'s mutation preserves the disjointness invariant. -/
theorem disjointMods_awardPointsPure (s : ProgressState) (a : Int) (tid : Option String)
    (h : DisjointMods s) : DisjointMods (awardPointsPure s a tid).1 := by
  intro m hm
  rw [awardPointsPure_unlocked] at hm
  rcases awardPointsPure_avail s a tid with hav | ⟨hav, hfin⟩
  · rw [hav]
    exact h m hm
  · rw [hav]
    intro hmem
    rcases List.mem_append.mp hmem with hmem | hmem
    · exact h m hm hmem
    · rw [List.mem_singleton.mp hmem] at hm
      exact hfin hm

/-- `unlockModule`'s mutation preserves the disjointness invariant. -/
theorem disjointMods_unlockModulePure (s : ProgressState) (m : String)
    (h : DisjointMods s) : DisjointMods (unlockModulePure s m) := by
  intro x hx hxa
  have hxa' : x ∈ s.available_unlocks ∧ x ≠ m := by
    have := List.mem_filter.mp hxa
    exact ⟨this.1, by simpa using this.2⟩
  simp only [unlockModulePure] at hx
  by_cases hmem : m ∈ s.unlocked_modules
  · rw [if_pos hmem] at hx
    exact h x hx hxa'.1
  · rw [if_neg hmem] at hx
    rcases List.mem_append.mp hx with hx | hx
    · exact h x hx hxa'.1
    · exact hxa'.2 (List.mem_singleton.mp hx)

/-- `awardPoints` on an empty store (first-ever access): the default object is
loaded by alias, mutated and re-stamped, and ends up both persisted and as the
new value of the module-level default object. -/
theorem awardPoints_store_empty (st : Store) (hst : st.storage = none) (a : Int)
    (tid : Option String) (t1 t2 : Int) :
    (awardPoints st a tid t1 t2).1 =
      { storage := some { (awardPointsPure { st.defaultObj with last_updated := t1 }
            a tid).1 with last_updated := t2 }
        defaultObj := { (awardPointsPure { st.defaultObj with last_updated := t1 }
            a tid).1 with last_updated := t2 } } := by
  simp [awardPoints, loadProgress, hst, saveMutated]

/-- `awardPoints` on a store with a persisted record: the parsed copy is
mutated and persisted; the default object is untouched. -/
theorem awardPoints_store_loaded (st : Store) (p : ProgressState)
    (hst : st.storage = some p) (a : Int) (tid : Option String) (t1 t2 : Int) :
    (awardPoints st a tid t1 t2).1 =
      { storage := some { (awardPointsPure p a tid).1 with last_updated := t2 }
        defaultObj := st.defaultObj } := by
  simp [awardPoints, loadProgress, hst, saveMutated]

/-- `unlockModule` on an empty store (first-ever access). -/
theorem unlockModule_store_empty (st : Store) (hst : st.storage = none) (m : String)
    (t1 t2 : Int) :
    unlockModule st m t1 t2 =
      { storage := some { unlockModulePure { st.defaultObj with last_updated := t1 }
            m with last_updated := t2 }
        defaultObj := { unlockModulePure { st.defaultObj with last_updated := t1 }
            m with last_updated := t2 } } := by
  simp [unlockModule, loadProgress, hst, saveMutated]

/-- `unlockModule` on a store with a persisted record. -/
theorem unlockModule_store_loaded (st : Store) (p : ProgressState)
    (hst : st.storage = some p) (m : String) (t1 t2 : Int) :
    unlockModule st m t1 t2 =
      { storage := some { unlockModulePure p m with last_updated := t2 }
        defaultObj := st.defaultObj } := by
  simp [unlockModule, loadProgress, hst, saveMutated]

/-! ### Claim C9 -/

/-- Claim C9: each of `awardPoints`, `unlockModule` and `resetProgress`
preserves the invariant that a module name is in at most one of
`unlocked_modules` / `available_unlocks`: if the invariant holds of the
persisted record and of the default object before the operation, it holds of
everything the operation persists (the store invariant covers the persisted
record, which is always present afterwards). -/
theorem progress_ops_preserve_disjoint (st : Store) (a : Int) (tid : Option String)
    (m : String) (tA tB tC tD tE : Int) (hinv : StoreInv st) :
    StoreInv (awardPoints st a tid tA tB).1 ∧
    StoreInv (unlockModule st m tC tD) ∧
    StoreInv (resetProgress st tE) := by
  obtain ⟨hstore, hdef⟩ := hinv
  refine ⟨?_, ?_, ?_⟩
  · cases hst : st.storage with
    | none =>
        rw [awardPoints_store_empty st hst a tid tA tB, storeInv_mk]
        have hq : DisjointMods
            (awardPointsPure { st.defaultObj with last_updated := tA } a tid).1 :=
          disjointMods_awardPointsPure _ a tid hdef
        exact ⟨hq, hq⟩
    | some p =>
        rw [awardPoints_store_loaded st p hst a tid tA tB, storeInv_mk]
        exact ⟨disjointMods_awardPointsPure p a tid (hstore p hst), hdef⟩
  · cases hst : st.storage with
    | none =>
        rw [unlockModule_store_empty st hst m tC tD, storeInv_mk]
        have hq : DisjointMods
            (unlockModulePure { st.defaultObj with last_updated := tC } m) :=
          disjointMods_unlockModulePure _ m hdef
        exact ⟨hq, hq⟩
    | some p =>
        rw [unlockModule_store_loaded st p hst m tC tD, storeInv_mk]
        exact ⟨disjointMods_unlockModulePure p m (hstore p hst), hdef⟩
  · rw [resetProgress, storeInv_mk]
    exact ⟨hdef, hdef⟩

/-- Witness for `progress_ops_preserve_disjoint` on a fresh store. -/
theorem progress_ops_preserve_disjoint_witness :
    StoreInv (awardPoints emptyStore 5 (some "t1") 1 2).1 ∧
    StoreInv (unlockModule emptyStore "finance" 3 4) ∧
    StoreInv (resetProgress emptyStore 5) :=
  progress_ops_preserve_disjoint emptyStore 5 (some "t1") "finance" 1 2 3 4 5
    ⟨(fun _ hp => nomatch hp), by intro m hm; simp [emptyStore, DEFAULT_PROGRESS]⟩

/-! ### Claim C8 -/

/-- Claim C8 fails on the code (the claim reflects the spec's intent): when
`awardPoints(5, "t1")` is the first-ever store access, its internal
`loadProgress` hands back the module-level `DEFAULT_PROGRESS` object itself,
and the in-place mutation corrupts it; `resetProgress` then persists the
corrupted default, so the subsequent `loadProgress` returns a record with 5
points instead of the documented default of 0. -/
theorem reset_then_load_not_default :
    (loadProgress (resetProgress (awardPoints emptyStore 5 (some "t1") 1 2).1 3)
        4).2.1.points = 5 ∧
    ¬ (loadProgress (resetProgress (awardPoints emptyStore 5 (some "t1") 1 2).1 3)
        4).2.1.points = 0 ∧
    (loadProgress (resetProgress (awardPoints emptyStore 5 (some "t1") 1 2).1 3)
        4).2.1.tasks_completed = ["t1"] := by
  decide

/-! ### Claim C10 -/

/-- Claim C10 as stated is false on the code: in the stated sequence the
first `loadProgress` persists the default snapshot, so the subsequent
`awardPoints` re-reads storage and mutates a *parsed copy*, not the shared
default object; `resetProgress` then restores a clean default and the final
`loadProgress` returns 0 points, not the awarded 5. -/
theorem default_alias_sequence_cex :
    (loadProgress (resetProgress (awardPoints ((loadProgress emptyStore 1).1) 5
        (some "t1") 2 3).1 4) 5).2.1.points = 0 ∧
    ¬ (loadProgress (resetProgress (awardPoints ((loadProgress emptyStore 1).1) 5
        (some "t1") 2 3).1 4) 5).2.1.points = 5 := by
  decide

/-- Claim C10 (amended): the first-ever `loadProgress` does return the
module-level default object itself (the aliasing flag), but a `loadProgress`
after storage has been seeded returns a parsed copy; the in-place corruption
of the default object happens when `awardPoints` itself is the first-ever
access — for the sequence `awardPoints(a, t)` on empty storage, then
`resetProgress`, then `loadProgress`, the final `loadProgress` returns a
record with `points = a` rather than zero. -/
theorem default_alias_amended (a : Int) (t : String) (t0 t1 t2 t3 t4 : Int) :
    (loadProgress emptyStore t0).2.2 = true ∧
    (loadProgress emptyStore t0).1.defaultObj = (loadProgress emptyStore t0).2.1 ∧
    (loadProgress ((loadProgress emptyStore t0).1) t1).2.2 = false ∧
    (loadProgress (resetProgress (awardPoints emptyStore a (some t) t1 t2).1 t3)
        t4).2.1.points = a := by
  refine ⟨rfl, rfl, rfl, ?_⟩
  simp [loadProgress, emptyStore, resetProgress, awardPoints, saveMutated,
    awardPointsPure, DEFAULT_PROGRESS]

/-! ### Claim C4 -/

/-- Claim C4 as stated is false on the code: the `ws.onclose` handler resets
`connected` and `connection` but does **not** clear `connectionInfo`, so after
a transport-level close the captured bearer token is still present in the
client's state. -/
theorem transport_close_keeps_token_cex :
    (onTransportClose (onOpen "192.168.0.2" 8765 "tok" initialClientConn)).connected
        = false ∧
    (onTransportClose (onOpen "192.168.0.2" 8765 "tok" initialClientConn)).connection
        = false ∧
    (onTransportClose (onOpen "192.168.0.2" 8765 "tok" initialClientConn)).connectionInfo
        = some { ip := "192.168.0.2", port := 8765, token := "tok" } ∧
    ¬ (onTransportClose (onOpen "192.168.0.2" 8765 "tok"
        initialClientConn)).connectionInfo = none := by
  decide

/-- Claim C4 (amended): a transport-level close while `Connected` transitions
directly to Disconnected (`connected = false`, `connection = null`, so
`isConnected()` is false), but it leaves the captured connection info — the
bearer token included — unchanged; only an explicit `disconnect()` clears it. -/
theorem transport_close_amended (s : ClientConn) (_hconn : s.connected = true) :
    (onTransportClose s).connected = false ∧
    (onTransportClose s).connection = false ∧
    isConnected (onTransportClose s) = false ∧
    (onTransportClose s).connectionInfo = s.connectionInfo ∧
    (s.connection = true → (disconnect s).connectionInfo = none) := by
  refine ⟨rfl, rfl, rfl, rfl, ?_⟩
  intro h
  simp [disconnect, h]

/-- Witness for `transport_close_amended` on a freshly opened connection. -/
theorem transport_close_amended_witness :
    (onTransportClose (onOpen "10.0.0.7" 8765 "tok" initialClientConn)).connected
        = false ∧
    (onTransportClose (onOpen "10.0.0.7" 8765 "tok" initialClientConn)).connection
        = false ∧
    isConnected (onTransportClose (onOpen "10.0.0.7" 8765 "tok" initialClientConn))
        = false ∧
    (onTransportClose (onOpen "10.0.0.7" 8765 "tok" initialClientConn)).connectionInfo
        = (onOpen "10.0.0.7" 8765 "tok" initialClientConn).connectionInfo ∧
    ((onOpen "10.0.0.7" 8765 "tok" initialClientConn).connection = true →
      (disconnect (onOpen "10.0.0.7" 8765 "tok" initialClientConn)).connectionInfo
        = none) :=
  transport_close_amended (onOpen "10.0.0.7" 8765 "tok" initialClientConn) rfl

/-! ### Claim C5 -/

/-- The candidate loop succeeds exactly at the first opening candidate,
attempting the failing prefix in order and nothing after. -/
theorem connectGo_first_success (attempt : String → Option String) (pre : List String)
    (c : String) (post : List String) (hpre : ∀ ip ∈ pre, attempt ip ≠ none)
    (hc : attempt c = none) (errs : List String) :
    connectGo attempt errs (pre ++ c :: post) = (Except.ok (), pre ++ [c]) := by
  induction pre generalizing errs with
  | nil => simp [connectGo, hc]
  | cons ip rest ih =>
      obtain ⟨e, he⟩ : ∃ e, attempt ip = some e := by
        cases h : attempt ip with
        | none => exact absurd h (hpre ip (List.mem_cons_self ip rest))
        | some e => exact ⟨e, rfl⟩
      have hrest : ∀ q ∈ rest, attempt q ≠ none :=
        fun q hq => hpre q (List.mem_cons_of_mem ip hq)
      calc connectGo attempt errs ((ip :: rest) ++ c :: post)
          = ((connectGo attempt (errs ++ [ip ++ ": " ++ e]) (rest ++ c :: post)).1,
              ip :: (connectGo attempt (errs ++ [ip ++ ": " ++ e])
                (rest ++ c :: post)).2) := by
            simp [connectGo, he]
        _ = (Except.ok (), (ip :: rest) ++ [c]) := by
            rw [ih hrest]
            rfl

/-- The candidate loop, when every candidate fails, attempts them all and
produces the aggregate message built from every candidate and its error. -/
theorem connectGo_all_fail (attempt : String → Option String) (ips : List String)
    (hall : ∀ ip ∈ ips, attempt ip ≠ none) (errs : List String) :
    connectGo attempt errs ips =
      (Except.error (connectErrorMsg
        (errs ++ ips.map (fun ip => ip ++ ": " ++ (attempt ip).getD ""))), ips) := by
  induction ips generalizing errs with
  | nil => simp [connectGo]
  | cons ip rest ih =>
      obtain ⟨e, he⟩ : ∃ e, attempt ip = some e := by
        cases h : attempt ip with
        | none => exact absurd h (hall ip (List.mem_cons_self ip rest))
        | some e => exact ⟨e, rfl⟩
      have hrest : ∀ q ∈ rest, attempt q ≠ none :=
        fun q hq => hall q (List.mem_cons_of_mem ip hq)
      calc connectGo attempt errs (ip :: rest)
          = ((connectGo attempt (errs ++ [ip ++ ": " ++ e]) rest).1,
              ip :: (connectGo attempt (errs ++ [ip ++ ": " ++ e]) rest).2) := by
            simp [connectGo, he]
        _ = (Except.error (connectErrorMsg
              (errs ++ (ip :: rest).map (fun q => q ++ ": " ++ (attempt q).getD ""))),
            ip :: rest) := by
            rw [ih hrest]
            simp [he, List.append_assoc]

/-- Claim C5: `connect` tries candidates strictly in order, returning success
at the first candidate that opens without attempting any later one, and when
every candidate fails it fails with a single aggregate error naming each
candidate together with its individual error message. -/
theorem connect_candidates_in_order (attempt : String → Option String) :
    (∀ pre c post, (∀ ip ∈ pre, attempt ip ≠ none) → attempt c = none →
      connect attempt (pre ++ c :: post) = (Except.ok (), pre ++ [c])) ∧
    (∀ ips, (∀ ip ∈ ips, attempt ip ≠ none) →
      connect attempt ips =
        (Except.error (connectErrorMsg
          (ips.map (fun ip => ip ++ ": " ++ (attempt ip).getD ""))), ips)) := by
  constructor
  · intro pre c post hpre hc
    exact connectGo_first_success attempt pre c post hpre hc []
  · intro ips hall
    have h := connectGo_all_fail attempt ips hall []
    simpa [connect] using h

/-- Witness for `connect_candidates_in_order`: candidates `[A, B]` with only
`B` opening, and candidates `[A, B]` with both timing out. -/
theorem connect_candidates_in_order_witness :
    connect attemptSecondOpens (["A"] ++ "B" :: []) = (Except.ok (), ["A"] ++ ["B"]) ∧
    connect attemptAllFail ["A", "B"] =
      (Except.error (connectErrorMsg
        (["A", "B"].map (fun ip => ip ++ ": " ++ (attemptAllFail ip).getD ""))),
        ["A", "B"]) :=
  ⟨(connect_candidates_in_order attemptSecondOpens).1 ["A"] "B" [] (by decide)
      (by decide),
    (connect_candidates_in_order attemptAllFail).2 ["A", "B"] (by decide)⟩

/-! ### Claim C2 -/

/-- Claim C2: for a live pending id, whichever of response-arrival
(`handleMessage`) and timeout-expiry fires first removes the entry and settles
the promise exactly once; the later event finds no entry and is a no-op, so no
entry is settled twice; and a response whose id has no live entry has no
effect at all. -/
theorem pending_settle_exactly_once (cb : TaskResponse → Settlement) (s : LinkState)
    (resp : TaskResponse) (id : String) (hid : resp.taskId = id)
    (hnd : s.pending.Nodup) (hmem : id ∈ s.pending) :
    (id ∉ (handleMessage cb s resp).pending ∧
      settleCount (handleMessage cb s resp) id = settleCount s id + 1 ∧
      expireRequest (handleMessage cb s resp) id = handleMessage cb s resp) ∧
    (id ∉ (expireRequest s id).pending ∧
      settleCount (expireRequest s id) id = settleCount s id + 1 ∧
      handleMessage cb (expireRequest s id) resp = expireRequest s id) ∧
    (∀ s2 : LinkState, resp.taskId ∉ s2.pending → handleMessage cb s2 resp = s2) := by
  subst hid
  have herase : resp.taskId ∉ s.pending.erase resp.taskId := hnd.not_mem_erase
  have hHM : handleMessage cb s resp =
      { pending := s.pending.erase resp.taskId
        settlements := s.settlements ++ [(resp.taskId, cb resp)] } := by
    simp [handleMessage, hmem]
  have hEX : expireRequest s resp.taskId =
      { pending := s.pending.erase resp.taskId
        settlements := s.settlements ++
          [(resp.taskId, Settlement.rejected "Request timeout")] } := by
    simp [expireRequest, hmem]
  refine ⟨⟨?_, ?_, ?_⟩, ⟨?_, ?_, ?_⟩, ?_⟩
  · rw [hHM]
    exact herase
  · rw [hHM]
    simp [settleCount, List.filter_append]
  · rw [hHM, expireRequest, if_neg herase]
  · rw [hEX]
    exact herase
  · rw [hEX]
    simp [settleCount, List.filter_append]
  · rw [hEX, handleMessage, if_neg herase]
  · intro s2 h2
    simp [handleMessage, h2]

/-- Witness for `pending_settle_exactly_once` on a table with one live entry. -/
theorem pending_settle_exactly_once_witness :
    ("task_1" ∉ (handleMessage validationCallback
        { pending := ["task_1"], settlements := [] }
        { taskId := "task_1", success := true
          result := { error := none, fields := [] } }).pending ∧
      settleCount (handleMessage validationCallback
        { pending := ["task_1"], settlements := [] }
        { taskId := "task_1", success := true
          result := { error := none, fields := [] } }) "task_1" =
        settleCount { pending := ["task_1"], settlements := [] } "task_1" + 1 ∧
      expireRequest (handleMessage validationCallback
        { pending := ["task_1"], settlements := [] }
        { taskId := "task_1", success := true
          result := { error := none, fields := [] } }) "task_1" =
        handleMessage validationCallback
          { pending := ["task_1"], settlements := [] }
          { taskId := "task_1", success := true
            result := { error := none, fields := [] } }) ∧
    ("task_1" ∉ (expireRequest { pending := ["task_1"], settlements := [] }
        "task_1").pending ∧
      settleCount (expireRequest { pending := ["task_1"], settlements := [] }
        "task_1") "task_1" =
        settleCount { pending := ["task_1"], settlements := [] } "task_1" + 1 ∧
      handleMessage validationCallback
        (expireRequest { pending := ["task_1"], settlements := [] } "task_1")
        { taskId := "task_1", success := true
          result := { error := none, fields := [] } } =
        expireRequest { pending := ["task_1"], settlements := [] } "task_1") ∧
    (∀ s2 : LinkState,
      ({ taskId := "task_1", success := true
         result := { error := none, fields := [] } } : TaskResponse).taskId ∉ s2.pending →
      handleMessage validationCallback s2
        { taskId := "task_1", success := true
          result := { error := none, fields := [] } } = s2) :=
  pending_settle_exactly_once validationCallback
    { pending := ["task_1"], settlements := [] }
    { taskId := "task_1", success := true, result := { error := none, fields := [] } }
    "task_1" rfl (by decide) (by decide)

/-! ### Claim C6 -/

/-- Claim C6: when a response whose `taskId` matches a pending validation call
arrives, the entry is removed and the promise settles: resolved with the
response's `result` when `success` is true; rejected with the carried error
description when `success` is false and a non-empty `error` string is carried;
rejected with the generic fallback `'Validation failed'` when no error
description is carried (absent or empty `error`). -/
theorem validation_response_settles (s : LinkState) (resp : TaskResponse)
    (hmem : resp.taskId ∈ s.pending) :
    (resp.success = true →
      handleMessage validationCallback s resp =
        { pending := s.pending.erase resp.taskId
          settlements := s.settlements ++
            [(resp.taskId, Settlement.resolved resp.result)] }) ∧
    (resp.success = false → ∀ e, resp.result.error = some e → e ≠ "" →
      handleMessage validationCallback s resp =
        { pending := s.pending.erase resp.taskId
          settlements := s.settlements ++ [(resp.taskId, Settlement.rejected e)] }) ∧
    (resp.success = false →
      resp.result.error = none ∨ resp.result.error = some "" →
      handleMessage validationCallback s resp =
        { pending := s.pending.erase resp.taskId
          settlements := s.settlements ++
            [(resp.taskId, Settlement.rejected "Validation failed")] }) := by
  refine ⟨?_, ?_, ?_⟩
  · intro hs
    simp [handleMessage, hmem, validationCallback, hs]
  · intro hs e he hne
    simp [handleMessage, hmem, validationCallback, hs, he, hne]
  · intro hs hcase
    rcases hcase with hc | hc
    · simp [handleMessage, hmem, validationCallback, hs, hc]
    · simp [handleMessage, hmem, validationCallback, hs, hc]

/-- Witness for `validation_response_settles` on a failure response carrying
an error description. -/
theorem validation_response_settles_witness :
    (({ taskId := "task_9", success := false
        result := { error := some "bad image", fields := [] } } : TaskResponse).success
          = true →
      handleMessage validationCallback { pending := ["task_9"], settlements := [] }
        { taskId := "task_9", success := false
          result := { error := some "bad image", fields := [] } } =
        { pending := (["task_9"] : List String).erase "task_9"
          settlements := [] ++ [("task_9", Settlement.resolved
            { error := some "bad image", fields := [] })] }) ∧
    (({ taskId := "task_9", success := false
        result := { error := some "bad image", fields := [] } } : TaskResponse).success
          = false →
      ∀ e, ({ error := some "bad image", fields := [] } : ResultObj).error = some e →
        e ≠ "" →
      handleMessage validationCallback { pending := ["task_9"], settlements := [] }
        { taskId := "task_9", success := false
          result := { error := some "bad image", fields := [] } } =
        { pending := (["task_9"] : List String).erase "task_9"
          settlements := [] ++ [("task_9", Settlement.rejected e)] }) ∧
    (({ taskId := "task_9", success := false
        result := { error := some "bad image", fields := [] } } : TaskResponse).success
          = false →
      ({ error := some "bad image", fields := [] } : ResultObj).error = none ∨
        ({ error := some "bad image", fields := [] } : ResultObj).error = some "" →
      handleMessage validationCallback { pending := ["task_9"], settlements := [] }
        { taskId := "task_9", success := false
          result := { error := some "bad image", fields := [] } } =
        { pending := (["task_9"] : List String).erase "task_9"
          settlements := [] ++ [("task_9", Settlement.rejected "Validation failed")] }) :=
  validation_response_settles { pending := ["task_9"], settlements := [] }
    { taskId := "task_9", success := false
      result := { error := some "bad image", fields := [] } }
    (by decide)

end Zelara
